import Mathlib

/-!
Verification of `assets/js/theme/product/dynamic-custom-field-tabs.js`:
a shallow embedding of the module's pure partitioner
(`isNewTabTrigger`, `slugify`, `groupCustomFieldsIntoTabs`) and of its
presenter (`injectLeadingCustomFields`, `injectDynamicTabs`,
`bindDynamicTabClicks`, `initDynamicCustomFieldTabs`, and the delegated
click handler), together with theorems about the behaviour the
documentation ascribes to them.

JS values are modelled by the primitive values that actually occur in a
Stencil context's custom-field data: strings, booleans, `null` and
`undefined` (a missing property reads as `undefined`).  String operations
(`trim`, `toLowerCase`, the regexes `\s+` and `[^a-z0-9-]`) are modelled
over the ASCII whitespace subset, which is the alphabet this data lives in.
All definitions are structurally recursive so concrete runs evaluate
inside the kernel.
-/

/-- A JS primitive value as it occurs in the custom-fields context. -/
inductive JSVal where
  | str : String → JSVal
  | bool : Bool → JSVal
  | null : JSVal
  | undef : JSVal
deriving DecidableEq, Repr

/-- JS truthiness of a primitive value. -/
def JSVal.truthy : JSVal → Bool
  | .str s => s != ""
  | .bool b => b
  | .null => false
  | .undef => false

/-- JS `String(v)` coercion of a primitive value. -/
def JSVal.toJSString : JSVal → String
  | .str s => s
  | .bool true => "true"
  | .bool false => "false"
  | .null => "null"
  | .undef => "undefined"

/-- JS `v == null` (loose): true exactly for `null` and `undefined`. -/
def JSVal.isNullish : JSVal → Bool
  | .null => true
  | .undef => true
  | _ => false

/-- The ASCII whitespace recognised by JS `trim` and the regex `\s`. -/
def isJsSpace (c : Char) : Bool :=
  c == ' ' || c == '\t' || c == '\n' || c == '\r' || c == '\x0b' || c == '\x0c'

/-- JS `String.prototype.trim` (ASCII whitespace). -/
def jsTrim (s : String) : String :=
  ⟨((s.data.dropWhile isJsSpace).reverse.dropWhile isJsSpace).reverse⟩

/-- JS `String.prototype.toLowerCase` (ASCII letters). -/
def jsToLowerCase (s : String) : String :=
  ⟨s.data.map Char.toLower⟩

/-- One pass of `label.replace(/\s+/g, "-")`: the flag records whether the
previous character was part of a whitespace run already replaced. -/
def collapseWsGo : Bool → List Char → List Char
  | _, [] => []
  | prevWs, c :: rest =>
    if isJsSpace c then
      if prevWs then collapseWsGo true rest
      else '-' :: collapseWsGo true rest
    else c :: collapseWsGo false rest

/-- `label.replace(/\s+/g, "-")`: collapse each whitespace run to one hyphen. -/
def collapseWs (s : String) : String := ⟨collapseWsGo false s.data⟩

/-- Membership in `[a-z0-9-]`. -/
def isSlugChar (c : Char) : Bool :=
  (decide (97 ≤ c.toNat) && decide (c.toNat ≤ 122)) ||
  (decide (48 ≤ c.toNat) && decide (c.toNat ≤ 57)) ||
  c == '-'

/-- `slug.replace(/[^a-z0-9-]/g, "")`. -/
def stripNonSlug (s : String) : String := ⟨s.data.filter isSlugChar⟩

/-- The decimal digit characters, as produced by JS number-to-string. -/
def digitCh : Nat → Char
  | 0 => '0'
  | 1 => '1'
  | 2 => '2'
  | 3 => '3'
  | 4 => '4'
  | 5 => '5'
  | 6 => '6'
  | 7 => '7'
  | 8 => '8'
  | _ => '9'

/-- Fuelled decimal rendering of a natural number (big-endian digits);
`fuel` bounds the recursion depth and any `fuel > n` is enough. -/
def natDecGo : Nat → Nat → List Char
  | 0, _ => []
  | fuel + 1, n =>
    if n < 10 then [digitCh n]
    else natDecGo fuel (n / 10) ++ [digitCh (n % 10)]

/-- JS template-literal rendering `${i}` of a natural number. -/
def natStr (n : Nat) : String := ⟨natDecGo (n + 1) n⟩

/-- `NEWTAB_TRIGGER_NAME` from the source. -/
def NEWTAB_TRIGGER_NAME : String := "__newtab"

/-- `isNewTabTrigger(name)`: `name && String(name).trim().toLowerCase() ===
"__newtab"`, collapsed to its truthiness as used in the `if`. -/
def isNewTabTrigger (name : JSVal) : Bool :=
  name.truthy && (jsToLowerCase (jsTrim name.toJSString) == NEWTAB_TRIGGER_NAME)

/-- `slugify(label, index)` from the source.  At both call sites the label
argument is already a string, so the `typeof label !== "string"` guard of
the source is vacuous and is not modelled. -/
def slugify (label : String) (index : Nat) : String :=
  let slug := stripNonSlug (collapseWs (jsTrim (jsToLowerCase label)))
  if slug = "" then "tab-custom-" ++ natStr index else slug

/-- An attribute object `{name, value}` from the context's custom fields. -/
structure Attr where
  name : JSVal
  value : JSVal
deriving DecidableEq, Repr

/-- An element of the `customFields` array: an attribute object, or a
`null`/`undefined` entry (on which any property access throws). -/
inductive JSField where
  | obj : Attr → JSField
  | jnull : JSField
  | jundef : JSField
deriving DecidableEq, Repr

/-- The `productCustomFields` value: an array, or a non-array primitive
(for which `Array.isArray` is false). -/
inductive CFVal where
  | arr : List JSField → CFVal
  | prim : JSVal → CFVal
deriving DecidableEq, Repr

/-- JS truthiness of the `productCustomFields` value (arrays are always
truthy, even when empty). -/
def cfTruthy : CFVal → Bool
  | .arr _ => true
  | .prim v => v.truthy

/-- A normalized field `{name, value}` as pushed by the partitioner
(`name` is the trimmed string, `value` the JS value kept alongside it). -/
structure FieldEntry where
  name : String
  value : JSVal
deriving DecidableEq, Repr

/-- A tab `{label, slug, fields}` built from a `__newtab` trigger. -/
structure Tab where
  label : String
  slug : String
  fields : List FieldEntry
deriving DecidableEq, Repr

/-- The `{leadingFields, tabs}` result of `groupCustomFieldsIntoTabs`. -/
structure GroupResult where
  leadingFields : List FieldEntry
  tabs : List Tab
deriving DecidableEq, Repr

/-- The loop state of the `forEach` in `groupCustomFieldsIntoTabs`:
`result.leadingFields`, the `tabs` array and the `seenFirstTrigger` flag.
The mutable `currentTab` reference always aliases the last element of
`tabs` (it is set exactly when a tab is pushed and never cleared), so it
is represented by that last element. -/
structure GState where
  leading : List FieldEntry
  tabs : List Tab
  seen : Bool
deriving DecidableEq, Repr

/-- `const name = field.name && String(field.name).trim()`. -/
def normName (v : JSVal) : JSVal :=
  if v.truthy then .str (jsTrim v.toJSString) else v

/-- `const value = field.value != null ? field.value : ""`. -/
def normValue (v : JSVal) : JSVal :=
  if v.isNullish then .str "" else v

/-- `typeof value === "string" ? value.trim() : String(value)`. -/
def tabLabelOf : JSVal → String
  | .str s => jsTrim s
  | v => v.toJSString

/-- `currentTab.fields.push({name, value})`: the aliased `currentTab` is
the last element of `tabs`, so the push mutates that element in place. -/
def appendToLast (ts : List Tab) (f : FieldEntry) : List Tab :=
  match ts with
  | [] => []
  | [t] => [{ t with fields := t.fields ++ [f] }]
  | t :: rest => t :: appendToLast rest f

/-- The body of the `forEach` in `groupCustomFieldsIntoTabs` for an
attribute object. -/
def processAttr (s : GState) (a : Attr) : GState :=
  let name := normName a.name
  let value := normValue a.value
  if isNewTabTrigger name then
    let label := tabLabelOf value
    let tab : Tab :=
      { label := if label = "" then "Details" else label
        slug := slugify label s.tabs.length
        fields := [] }
    { s with tabs := s.tabs ++ [tab], seen := true }
  else if name.truthy then
    let f : FieldEntry := { name := name.toJSString, value := value }
    if s.seen && !s.tabs.isEmpty then { s with tabs := appendToLast s.tabs f }
    else { s with leading := s.leading ++ [f] }
  else s

/-- The `forEach` loop: property access on a `null`/`undefined` element
throws a `TypeError`, which propagates out of `groupCustomFieldsIntoTabs`. -/
def groupFieldsGo : GState → List JSField → Except String GState
  | s, [] => .ok s
  | s, .obj a :: rest => groupFieldsGo (processAttr s a) rest
  | _, .jnull :: _ => .error "TypeError"
  | _, .jundef :: _ => .error "TypeError"

/-- The initial loop state (`result` and flags before the `forEach`). -/
def initGState : GState := { leading := [], tabs := [], seen := false }

/-- `groupCustomFieldsIntoTabs(customFields)` from the source: early
return on a non-array or empty input, otherwise run the `forEach`. -/
def groupCustomFieldsIntoTabs : CFVal → Except String GroupResult
  | .prim _ => .ok { leadingFields := [], tabs := [] }
  | .arr fs =>
    if fs.isEmpty then .ok { leadingFields := [], tabs := [] }
    else
      match groupFieldsGo initGState fs with
      | .error e => .error e
      | .ok s => .ok { leadingFields := s.leading, tabs := s.tabs }

/-- `escapeHtml(str)`: the text-content escape performed by assigning
`textContent` and reading `innerHTML` (ASCII markup characters). -/
def escapeHtml (s : String) : String :=
  ⟨s.data.flatMap fun c =>
    if c = '&' then "&amp;".data
    else if c = '<' then "&lt;".data
    else if c = '>' then "&gt;".data
    else [c]⟩

/-- The rendered tab identifier `` `tab-dynamic-${tab.slug}-${i}` `` built
inside `injectDynamicTabs`. -/
def renderedTabId (slug : String) (i : Nat) : String :=
  "tab-dynamic-" ++ slug ++ "-" ++ natStr i

/-- A `li.tab` list item built by `injectDynamicTabs`: the link target and
the escaped label text. -/
structure TabItem where
  href : String
  labelHtml : String
deriving DecidableEq, Repr

/-- A `div.tab-content` panel built by `injectDynamicTabs`: its id and the
field pairs of its inner `dl`. -/
structure PanelNode where
  id : String
  fields : List FieldEntry
deriving DecidableEq, Repr

/-- The document state this module can observe and mutate: whether each of
the three anchors exists, the content inserted before each anchor (in
document order: inserting before an anchor appends after everything
inserted there earlier), and how many delegated click listeners have been
registered on the document. -/
structure Doc where
  hasLeadingAnchor : Bool
  hasTabsAnchor : Bool
  hasContentAnchor : Bool
  leadingPairs : List FieldEntry
  tabListItems : List TabItem
  tabPanels : List PanelNode
  clickListeners : Nat
deriving DecidableEq, Repr

/-- `injectLeadingCustomFields(leadingFields)` from the source: build one
`dt`/`dd` pair per field and insert the batch before the leading anchor. -/
def injectLeadingCustomFields (leadingFields : List FieldEntry) (d : Doc) : Doc :=
  if leadingFields.isEmpty then d
  else if !d.hasLeadingAnchor then d
  else { d with leadingPairs := d.leadingPairs ++ leadingFields }

/-- The `li` built for tab `tab` at index `i` in `injectDynamicTabs`. -/
def renderTabItem (i : Nat) (t : Tab) : TabItem :=
  { href := "#" ++ renderedTabId t.slug i, labelHtml := escapeHtml t.label }

/-- The `div.tab-content` built for tab `tab` at index `i`. -/
def renderTabPanel (i : Nat) (t : Tab) : PanelNode :=
  { id := renderedTabId t.slug i, fields := t.fields }

/-- `injectDynamicTabs(tabs)` from the source: requires both anchors, then
inserts the tab list items and the content panels, each as one batch. -/
def injectDynamicTabs (tabs : List Tab) (d : Doc) : Doc :=
  if tabs.isEmpty then d
  else if !(d.hasTabsAnchor && d.hasContentAnchor) then d
  else { d with tabListItems := d.tabListItems ++ tabs.mapIdx renderTabItem
                tabPanels := d.tabPanels ++ tabs.mapIdx renderTabPanel }

/-- `bindDynamicTabClicks()`: registers one more delegated click listener
on the document. -/
def bindDynamicTabClicks (d : Doc) : Doc :=
  { d with clickListeners := d.clickListeners + 1 }

/-- The Stencil context object: the activation flag and the raw custom
fields value (a missing property reads as `undefined` / `prim .undef`). -/
structure Context where
  productUseDynamicCustomFieldTabs : JSVal
  productCustomFields : CFVal
deriving DecidableEq, Repr

/-- The `context` argument itself, which may be `null`/`undefined`. -/
inductive JSContext where
  | ctx : Context → JSContext
  | cnull : JSContext
  | cundef : JSContext
deriving DecidableEq, Repr

/-- `initDynamicCustomFieldTabs(context)` from the source.  An exception
raised by the partitioner propagates (there is no try/catch). -/
def initDynamicCustomFieldTabs : JSContext → Doc → Except String Doc
  | .cnull, d => .ok d
  | .cundef, d => .ok d
  | .ctx c, d =>
    if !c.productUseDynamicCustomFieldTabs.truthy then .ok d
    else if !cfTruthy c.productCustomFields then .ok d
    else
      match groupCustomFieldsIntoTabs c.productCustomFields with
      | .error e => .error e
      | .ok r =>
        let d1 := injectLeadingCustomFields r.leadingFields d
        if r.tabs.length > 0 then
          .ok (bindDynamicTabClicks (injectDynamicTabs r.tabs d1))
        else .ok d1

/-- A tab label control (`li.tab > a`) as seen by the delegated click
handler: its `href` attribute (absent = `undefined`) and whether its `li`
carries `is-active`. -/
structure TabLabelNode where
  href : Option String
  active : Bool
deriving DecidableEq, Repr

/-- A `div.tab-content` panel as seen by the click handler. -/
structure TabPanelNode where
  id : String
  active : Bool
deriving DecidableEq, Repr

/-- One tab group: the label controls inside `.tabs` and the sibling
content panels, in document order. -/
structure TabGroup where
  labels : List TabLabelNode
  panels : List TabPanelNode
deriving DecidableEq, Repr

/-- The delegated handler of `bindDynamicTabClicks`, invoked on a click on
the label at index `i`.  Returns whether `e.preventDefault()` ran and the
updated group.  `$(href)` resolves the id to the first matching panel;
`removeClass`/`addClass` leave exactly the clicked label's `li` and the
resolved panel active. -/
def handleTabClick (g : TabGroup) (i : Nat) : Bool × TabGroup :=
  match g.labels.get? i with
  | none => (false, g)
  | some lab =>
    match lab.href with
    | none => (false, g)
    | some href =>
      if href = "" ∨ href = "#" then (false, g)
      else
        let targetId : String := ⟨href.data.drop 1⟩
        match g.panels.findIdx? (fun p => p.id == targetId) with
        | none => (false, g)
        | some k =>
          (true,
           { labels := g.labels.mapIdx fun j l => { l with active := j == i }
             panels := g.panels.mapIdx fun j p => { p with active := j == k } })

/-- Spec-side measure: an attribute name is usable when the source's
normalization `field.name && String(field.name).trim()` yields a truthy
(non-empty) string — i.e. the name, coerced to a string and trimmed, is
non-empty (a `null`/`undefined`/empty name is unusable). -/
def usableName (v : JSVal) : Bool := (normName v).truthy

/-- Spec-side measure: the attribute is a `__newtab` trigger sentinel. -/
def attrIsTrigger (a : Attr) : Bool := isNewTabTrigger (normName a.name)

/-- Spec-side measure: how many attributes have a usable name. -/
def usableCount (l : List Attr) : Nat := l.countP fun a => usableName a.name

/-- Spec-side measure: how many attributes are trigger sentinels. -/
def triggerCount (l : List Attr) : Nat := l.countP attrIsTrigger

/-- Spec-side normalization of one attribute: trimmed name, value
defaulted to the empty string when nullish. -/
def normFieldEntry (a : Attr) : FieldEntry :=
  { name := (normName a.name).toJSString, value := normValue a.value }

/-- Spec-side: the normalized non-trigger attributes with usable names, in
input order — what the partition must redistribute without reordering. -/
def keptFields (l : List Attr) : List FieldEntry :=
  (l.filter fun a => usableName a.name && !attrIsTrigger a).map normFieldEntry

/-- Spec-side measure: total number of fields across a tab sequence. -/
def sumFields (ts : List Tab) : Nat := (ts.map fun t => t.fields.length).sum

/-- Spec-side: all tab fields concatenated in tab order. -/
def joinFields (ts : List Tab) : List FieldEntry := (ts.map fun t => t.fields).flatten

/-- Modelled from the spec (claim C3's wording): derive a slug from the
tab's displayed label — lowercase it, collapse whitespace runs to single
hyphens, strip characters outside `[a-z0-9-]`, and fall back to a
synthetic `tab-custom-<index>` only when that result is empty.  This is
the claimed derivation, to be compared with the source's `slugify`, which
the source applies to the trigger's raw trimmed value instead. -/
def specSlugOfLabel (label : String) (index : Nat) : String :=
  let s := stripNonSlug (collapseWs (jsToLowerCase label))
  if s = "" then "tab-custom-" ++ natStr index else s

/-- The property access `field.name` succeeds only on attribute objects:
the hypothesis of the no-throw theorem. -/
def allObjElems : JSContext → Prop
  | .ctx c =>
    match c.productCustomFields with
    | .arr fs => ∀ f ∈ fs, ∃ a, f = JSField.obj a
    | .prim _ => True
  | .cnull => True
  | .cundef => True

/-- The numeric value of a decimal digit character. -/
def chVal (c : Char) : Nat := c.toNat - 48

/-- The number denoted by a big-endian list of decimal digit characters. -/
def listVal (l : List Char) : Nat := l.foldl (fun acc c => acc * 10 + chVal c) 0


theorem appendToLast_length (f : FieldEntry) :
    ∀ ts : List Tab, (appendToLast ts f).length = ts.length := by
  intro ts
  induction ts with
  | nil => rfl
  | cons t rest ih =>
    cases rest with
    | nil => rfl
    | cons t2 rest2 =>
      show (t :: appendToLast (t2 :: rest2) f).length = (t :: t2 :: rest2).length
      simp only [List.length_cons, ih]

theorem sumFields_appendToLast (f : FieldEntry) :
    ∀ ts : List Tab, ts ≠ [] → sumFields (appendToLast ts f) = sumFields ts + 1 := by
  intro ts
  induction ts with
  | nil => intro h; exact absurd rfl h
  | cons t rest ih =>
    intro _
    cases rest with
    | nil =>
      show sumFields [{ t with fields := t.fields ++ [f] }] = sumFields [t] + 1
      simp [sumFields]
    | cons t2 rest2 =>
      show sumFields (t :: appendToLast (t2 :: rest2) f) = sumFields (t :: t2 :: rest2) + 1
      have h2 := ih (by simp)
      simp only [sumFields, List.map_cons, List.sum_cons] at h2 ⊢
      omega

theorem joinFields_appendToLast (f : FieldEntry) :
    ∀ ts : List Tab, ts ≠ [] → joinFields (appendToLast ts f) = joinFields ts ++ [f] := by
  intro ts
  induction ts with
  | nil => intro h; exact absurd rfl h
  | cons t rest ih =>
    intro _
    cases rest with
    | nil =>
      show joinFields [{ t with fields := t.fields ++ [f] }] = joinFields [t] ++ [f]
      simp [joinFields]
    | cons t2 rest2 =>
      show joinFields (t :: appendToLast (t2 :: rest2) f)
        = joinFields (t :: t2 :: rest2) ++ [f]
      have h2 := ih (by simp)
      simp only [joinFields, List.map_cons, List.flatten_cons] at h2 ⊢
      rw [h2]
      simp [List.append_assoc]

theorem appendToLast_labelSlug (f : FieldEntry) :
    ∀ (ts : List Tab) (i : Nat),
      ((appendToLast ts f).get? i).map (fun t => (t.label, t.slug))
        = (ts.get? i).map (fun t => (t.label, t.slug)) := by
  intro ts
  induction ts with
  | nil => intro i; rfl
  | cons t rest ih =>
    intro i
    cases rest with
    | nil =>
      cases i with
      | zero => rfl
      | succ j => rfl
    | cons t2 rest2 =>
      cases i with
      | zero => rfl
      | succ j =>
        show ((appendToLast (t2 :: rest2) f).get? j).map (fun t => (t.label, t.slug))
          = ((t2 :: rest2).get? j).map (fun t => (t.label, t.slug))
        exact ih j

theorem processAttr_trigger (s : GState) (a : Attr)
    (h : isNewTabTrigger (normName a.name) = true) :
    processAttr s a =
      { s with
        tabs := s.tabs ++
          [{ label := if tabLabelOf (normValue a.value) = "" then "Details"
                      else tabLabelOf (normValue a.value)
             slug := slugify (tabLabelOf (normValue a.value)) s.tabs.length
             fields := [] }]
        seen := true } := by
  simp [processAttr, h]

theorem processAttr_push (s : GState) (a : Attr)
    (h1 : isNewTabTrigger (normName a.name) = false)
    (h2 : (normName a.name).truthy = true) :
    processAttr s a =
      if s.seen && !s.tabs.isEmpty
      then { s with tabs := appendToLast s.tabs (normFieldEntry a) }
      else { s with leading := s.leading ++ [normFieldEntry a] } := by
  simp [processAttr, h1, h2, normFieldEntry]

theorem processAttr_skip (s : GState) (a : Attr)
    (h1 : isNewTabTrigger (normName a.name) = false)
    (h2 : (normName a.name).truthy = false) :
    processAttr s a = s := by
  simp [processAttr, h1, h2]

theorem trigger_truthy {v : JSVal} (h : isNewTabTrigger v = true) : v.truthy = true :=
  ((Bool.and_eq_true _ _).mp h).1

theorem processAttr_seen_iff (s : GState) (a : Attr)
    (h : s.seen = true ↔ s.tabs ≠ []) :
    (processAttr s a).seen = true ↔ (processAttr s a).tabs ≠ [] := by
  cases h1 : isNewTabTrigger (normName a.name) with
  | true =>
    rw [processAttr_trigger s a h1]
    simp
  | false =>
    cases h2 : (normName a.name).truthy with
    | true =>
      rw [processAttr_push s a h1 h2]
      by_cases hg : (s.seen && !s.tabs.isEmpty) = true
      · rw [if_pos hg]
        obtain ⟨hseen, htabs⟩ := (Bool.and_eq_true _ _).mp hg
        have hne : s.tabs ≠ [] := by
          simpa using htabs
        have hlen : (appendToLast s.tabs (normFieldEntry a)).length = s.tabs.length :=
          appendToLast_length _ s.tabs
        constructor
        · intro _
          intro hnil
          have hnil' : appendToLast s.tabs (normFieldEntry a) = [] := hnil
          rw [hnil'] at hlen
          exact hne (List.eq_nil_of_length_eq_zero hlen.symm)
        · intro _; exact hseen
      · rw [if_neg hg]
        exact h
    | false =>
      rw [processAttr_skip s a h1 h2]
      exact h

theorem groupFieldsGo_map_obj :
    ∀ (l : List Attr) (s : GState),
      groupFieldsGo s (l.map JSField.obj) = .ok (l.foldl processAttr s) := by
  intro l
  induction l with
  | nil => intro s; rfl
  | cons a l ih => intro s; exact ih (processAttr s a)


theorem group_obj_eq (l : List Attr) :
    groupCustomFieldsIntoTabs (.arr (l.map JSField.obj))
      = .ok { leadingFields := (l.foldl processAttr initGState).leading,
              tabs := (l.foldl processAttr initGState).tabs } := by
  cases l with
  | nil => rfl
  | cons a l =>
    have h := groupFieldsGo_map_obj (a :: l) initGState
    simp only [List.map_cons] at h
    simp only [groupCustomFieldsIntoTabs, List.map_cons, List.isEmpty_cons,
      Bool.false_eq_true, if_false, h]

theorem triggerCount_cons_trigger {a : Attr} (l : List Attr)
    (h : isNewTabTrigger (normName a.name) = true) :
    triggerCount (a :: l) = triggerCount l + 1 := by
  simp [triggerCount, List.countP_cons, attrIsTrigger, h]

theorem triggerCount_cons_other {a : Attr} (l : List Attr)
    (h : isNewTabTrigger (normName a.name) = false) :
    triggerCount (a :: l) = triggerCount l := by
  simp [triggerCount, List.countP_cons, attrIsTrigger, h]

theorem usableCount_cons_usable {a : Attr} (l : List Attr)
    (h : (normName a.name).truthy = true) :
    usableCount (a :: l) = usableCount l + 1 := by
  simp [usableCount, List.countP_cons, usableName, h]

theorem usableCount_cons_other {a : Attr} (l : List Attr)
    (h : (normName a.name).truthy = false) :
    usableCount (a :: l) = usableCount l := by
  simp [usableCount, List.countP_cons, usableName, h]

theorem foldl_count :
    ∀ (l : List Attr) (s : GState), (s.seen = true ↔ s.tabs ≠ []) →
      (l.foldl processAttr s).leading.length + sumFields (l.foldl processAttr s).tabs
          + triggerCount l
        = s.leading.length + sumFields s.tabs + usableCount l := by
  intro l
  induction l with
  | nil =>
    intro s _
    simp [triggerCount, usableCount]
  | cons a l ih =>
    intro s hs
    rw [List.foldl_cons]
    have hiff := processAttr_seen_iff s a hs
    have IH := ih (processAttr s a) hiff
    cases h1 : isNewTabTrigger (normName a.name) with
    | true =>
      rw [triggerCount_cons_trigger l h1, usableCount_cons_usable l (trigger_truthy h1)]
      rw [processAttr_trigger s a h1] at IH ⊢
      simp only [sumFields, List.map_append, List.sum_append, List.map_cons,
        List.sum_cons, List.map_nil, List.sum_nil, List.length_nil] at IH ⊢
      omega
    | false =>
      cases h2 : (normName a.name).truthy with
      | true =>
        rw [triggerCount_cons_other l h1, usableCount_cons_usable l h2]
        rw [processAttr_push s a h1 h2] at IH ⊢
        by_cases hg : (s.seen && !s.tabs.isEmpty) = true
        · rw [if_pos hg] at IH ⊢
          have hne : s.tabs ≠ [] := by
            obtain ⟨_, htabs⟩ := (Bool.and_eq_true _ _).mp hg
            simpa using htabs
          have hsum := sumFields_appendToLast (normFieldEntry a) s.tabs hne
          simp only at IH
          rw [hsum] at IH
          omega
        · rw [if_neg hg] at IH ⊢
          simp only [List.length_append, List.length_cons, List.length_nil] at IH
          omega
      | false =>
        rw [triggerCount_cons_other l h1, usableCount_cons_other l h2]
        rw [processAttr_skip s a h1 h2] at IH ⊢
        omega

/-- C1: for every array of attribute objects, the number of leading
fields plus the total number of tab fields plus the number of trigger
sentinels equals the number of input attributes with a usable name (one
whose value, coerced to a string and trimmed, is truthy/non-empty);
attributes without a usable name are counted in no destination. -/
theorem groupCustomFieldsIntoTabs_count (l : List Attr) (r : GroupResult)
    (h : groupCustomFieldsIntoTabs (.arr (l.map JSField.obj)) = .ok r) :
    r.leadingFields.length + sumFields r.tabs + triggerCount l = usableCount l := by
  rw [group_obj_eq] at h
  injection h with h
  subst h
  have hbase := foldl_count l initGState (by simp [initGState])
  simp only [initGState, List.length_nil, sumFields, List.map_nil, List.sum_nil] at hbase
  simpa [sumFields] using hbase

theorem groupCustomFieldsIntoTabs_count_witness :
    (GroupResult.mk [FieldEntry.mk "A" (.str "v")]
        [Tab.mk "T" "t" [FieldEntry.mk "B" (.str "")]]).leadingFields.length
      + sumFields (GroupResult.mk [FieldEntry.mk "A" (.str "v")]
          [Tab.mk "T" "t" [FieldEntry.mk "B" (.str "")]]).tabs
      + triggerCount [Attr.mk (.str "A") (.str "v"), Attr.mk (.str "__newtab") (.str "T"),
          Attr.mk .null (.str "x"), Attr.mk (.str "B") .null]
      = usableCount [Attr.mk (.str "A") (.str "v"), Attr.mk (.str "__newtab") (.str "T"),
          Attr.mk .null (.str "x"), Attr.mk (.str "B") .null] :=
  groupCustomFieldsIntoTabs_count _ _ (by rfl)

theorem keptFields_cons_trigger {a : Attr} (l : List Attr)
    (h : isNewTabTrigger (normName a.name) = true) :
    keptFields (a :: l) = keptFields l := by
  simp [keptFields, List.filter_cons, attrIsTrigger, h]

theorem keptFields_cons_push {a : Attr} (l : List Attr)
    (h1 : isNewTabTrigger (normName a.name) = false)
    (h2 : (normName a.name).truthy = true) :
    keptFields (a :: l) = normFieldEntry a :: keptFields l := by
  simp [keptFields, List.filter_cons, attrIsTrigger, usableName, h1, h2]

theorem keptFields_cons_skip {a : Attr} (l : List Attr)
    (h2 : (normName a.name).truthy = false) :
    keptFields (a :: l) = keptFields l := by
  simp [keptFields, List.filter_cons, usableName, h2]

theorem foldl_order :
    ∀ (l : List Attr) (s : GState), (s.seen = true ↔ s.tabs ≠ []) →
      (l.foldl processAttr s).leading ++ joinFields (l.foldl processAttr s).tabs
        = s.leading ++ joinFields s.tabs ++ keptFields l := by
  intro l
  induction l with
  | nil =>
    intro s _
    simp [keptFields]
  | cons a l ih =>
    intro s hs
    rw [List.foldl_cons]
    have hiff := processAttr_seen_iff s a hs
    have IH := ih (processAttr s a) hiff
    cases h1 : isNewTabTrigger (normName a.name) with
    | true =>
      rw [keptFields_cons_trigger l h1]
      rw [processAttr_trigger s a h1] at IH ⊢
      simp only [joinFields, List.map_append, List.flatten_append, List.map_cons,
        List.flatten_cons, List.map_nil, List.flatten_nil, List.append_nil] at IH ⊢
      exact IH
    | false =>
      cases h2 : (normName a.name).truthy with
      | true =>
        rw [keptFields_cons_push l h1 h2]
        rw [processAttr_push s a h1 h2] at IH ⊢
        by_cases hg : (s.seen && !s.tabs.isEmpty) = true
        · rw [if_pos hg] at IH ⊢
          have hne : s.tabs ≠ [] := by
            obtain ⟨_, htabs⟩ := (Bool.and_eq_true _ _).mp hg
            simpa using htabs
          have hjoin := joinFields_appendToLast (normFieldEntry a) s.tabs hne
          simp only at IH
          rw [hjoin] at IH
          rw [IH]
          simp [List.append_assoc]
        · rw [if_neg hg] at IH ⊢
          have htabs : s.tabs = [] := by
            by_cases hseen : s.seen = true
            · exfalso
              apply hg
              have hne := hs.mp hseen
              simp [hseen, List.isEmpty_iff, hne]
            · have hsf : s.seen = false := by
                cases hval : s.seen with
                | true => exact absurd hval hseen
                | false => rfl
              exact not_not.mp (fun hne => hseen (hs.mpr hne))
          simp only at IH
          rw [IH, htabs]
          simp [joinFields]
      | false =>
        rw [keptFields_cons_skip l h2]
        rw [processAttr_skip s a h1 h2] at IH ⊢
        exact IH

/-- C2: for every array of attribute objects, concatenating the leading
fields and then each tab's fields in tab order yields exactly the
normalized non-trigger attributes with usable names, in input order. -/
theorem groupCustomFieldsIntoTabs_order (l : List Attr) (r : GroupResult)
    (h : groupCustomFieldsIntoTabs (.arr (l.map JSField.obj)) = .ok r) :
    r.leadingFields ++ joinFields r.tabs = keptFields l := by
  rw [group_obj_eq] at h
  injection h with h
  subst h
  have hbase := foldl_order l initGState (by simp [initGState])
  simpa [initGState, joinFields] using hbase

theorem groupCustomFieldsIntoTabs_order_witness :
    (GroupResult.mk [] [Tab.mk "T" "t" [FieldEntry.mk "B" (.str "w")]]).leadingFields
        ++ joinFields (GroupResult.mk [] [Tab.mk "T" "t" [FieldEntry.mk "B" (.str "w")]]).tabs
      = keptFields [Attr.mk (.str "__newtab") (.str "T"), Attr.mk (.str "B") (.str "w")] :=
  groupCustomFieldsIntoTabs_order _ _ (by rfl)

/-- C5: the specification's worked example.  Trigger recognition is
case-insensitive after trimming (`__NewTab` counts); the blank-valued
trigger yields the fallback label `Details`; markup in a value is kept
verbatim. -/
theorem groupCustomFieldsIntoTabs_example :
    groupCustomFieldsIntoTabs (.arr ([
        Attr.mk (.str "Color") (.str "Red"),
        Attr.mk (.str "__newtab") (.str "Specs"),
        Attr.mk (.str "Weight") (.str "2kg"),
        Attr.mk (.str "__NewTab") (.str " "),
        Attr.mk (.str "Note") (.str "<b>hi</b>")].map JSField.obj))
      = .ok { leadingFields := [FieldEntry.mk "Color" (.str "Red")],
              tabs := [Tab.mk "Specs" "specs" [FieldEntry.mk "Weight" (.str "2kg")],
                       Tab.mk "Details" "tab-custom-1"
                         [FieldEntry.mk "Note" (.str "<b>hi</b>")]] } := by
  rfl

/-- C7: whenever the activation flag is falsy, the attribute list is
falsy (absent reads as `undefined`), the attribute list is the empty
array, or it is not an array at all, `initDynamicCustomFieldTabs`
mutates nothing, registers no listener, and returns without error: the
document comes back exactly as it went in. -/
theorem initDynamicCustomFieldTabs_inactive_noop (c : Context) (d : Doc)
    (h : c.productUseDynamicCustomFieldTabs.truthy = false
        ∨ cfTruthy c.productCustomFields = false
        ∨ c.productCustomFields = .arr []
        ∨ (∃ v, c.productCustomFields = .prim v)) :
    initDynamicCustomFieldTabs (.ctx c) d = .ok d := by
  rcases h with hflag | hcf | harr | ⟨v, hprim⟩
  · simp [initDynamicCustomFieldTabs, hflag]
  · simp [initDynamicCustomFieldTabs, hcf]
  · by_cases hflag : c.productUseDynamicCustomFieldTabs.truthy = true
    · simp [initDynamicCustomFieldTabs, hflag, harr, cfTruthy,
        groupCustomFieldsIntoTabs, injectLeadingCustomFields]
    · have hf : c.productUseDynamicCustomFieldTabs.truthy = false := by
        cases hval : c.productUseDynamicCustomFieldTabs.truthy with
        | true => exact absurd hval hflag
        | false => rfl
      simp [initDynamicCustomFieldTabs, hf]
  · by_cases hflag : c.productUseDynamicCustomFieldTabs.truthy = true
    · by_cases htr : v.truthy = true
      · simp [initDynamicCustomFieldTabs, hflag, hprim, cfTruthy, htr,
          groupCustomFieldsIntoTabs, injectLeadingCustomFields]
      · have hvf : v.truthy = false := by
          cases hval : v.truthy with
          | true => exact absurd hval htr
          | false => rfl
        simp [initDynamicCustomFieldTabs, hflag, hprim, cfTruthy, hvf]
    · have hf : c.productUseDynamicCustomFieldTabs.truthy = false := by
        cases hval : c.productUseDynamicCustomFieldTabs.truthy with
        | true => exact absurd hval hflag
        | false => rfl
      simp [initDynamicCustomFieldTabs, hf]

theorem initDynamicCustomFieldTabs_inactive_noop_witness :
    initDynamicCustomFieldTabs
        (.ctx (Context.mk (.bool false) (.arr [.obj (Attr.mk (.str "A") (.str "v"))])))
        (Doc.mk true true true [] [] [] 0)
      = .ok (Doc.mk true true true [] [] [] 0) :=
  initDynamicCustomFieldTabs_inactive_noop _ _ (Or.inl (by rfl))

theorem injectLeading_clickListeners (L : List FieldEntry) (d : Doc) :
    (injectLeadingCustomFields L d).clickListeners = d.clickListeners := by
  unfold injectLeadingCustomFields
  by_cases h1 : L.isEmpty = true
  · rw [if_pos h1]
  · rw [if_neg h1]
    by_cases h2 : (!d.hasLeadingAnchor) = true
    · rw [if_pos h2]
    · rw [if_neg h2]

theorem bool_eq_false_of_ne_true {b : Bool} (h : ¬ b = true) : b = false := by
  cases hb : b with
  | true => exact absurd hb h
  | false => rfl

/-- C9: when the partition result has no tabs — even if leading fields
were injected — `initDynamicCustomFieldTabs` registers no click
listener; the delegated handler is bound only when a tab exists. -/
theorem initDynamicCustomFieldTabs_no_listener_without_tabs
    (c : Context) (d d' : Doc) (r : GroupResult)
    (hinit : initDynamicCustomFieldTabs (.ctx c) d = .ok d')
    (hgroup : groupCustomFieldsIntoTabs c.productCustomFields = .ok r)
    (htabs : r.tabs = []) :
    d'.clickListeners = d.clickListeners := by
  by_cases hflag : c.productUseDynamicCustomFieldTabs.truthy = true
  · by_cases hcf : cfTruthy c.productCustomFields = true
    · simp only [initDynamicCustomFieldTabs, hflag, hcf, hgroup, Bool.not_true,
        Bool.false_eq_true, if_false, htabs, List.length_nil, gt_iff_lt,
        Nat.lt_irrefl] at hinit
      injection hinit with hinit
      subst hinit
      exact injectLeading_clickListeners r.leadingFields d
    · simp only [initDynamicCustomFieldTabs, hflag, bool_eq_false_of_ne_true hcf,
        Bool.not_true, Bool.not_false, Bool.false_eq_true, if_false, if_true] at hinit
      injection hinit with hinit
      subst hinit
      rfl
  · simp only [initDynamicCustomFieldTabs, bool_eq_false_of_ne_true hflag,
      Bool.not_false, if_true] at hinit
    injection hinit with hinit
    subst hinit
    rfl

theorem initDynamicCustomFieldTabs_no_listener_without_tabs_witness :
    (Doc.mk true true true [FieldEntry.mk "A" (.str "v")] [] [] 0).clickListeners
      = (Doc.mk true true true [] [] [] 0).clickListeners :=
  initDynamicCustomFieldTabs_no_listener_without_tabs
    (Context.mk (.bool true) (.arr [.obj (Attr.mk (.str "A") (.str "v"))]))
    _ _ (GroupResult.mk [FieldEntry.mk "A" (.str "v")] [])
    (by rfl) (by rfl) rfl

theorem groupFieldsGo_ok_of_objs :
    ∀ (fs : List JSField) (s : GState), (∀ f ∈ fs, ∃ a, f = JSField.obj a) →
      ∃ s', groupFieldsGo s fs = .ok s' := by
  intro fs
  induction fs with
  | nil => intro s _; exact ⟨s, rfl⟩
  | cons f rest ih =>
    intro s h
    obtain ⟨a, rfl⟩ := h f (List.mem_cons_self f rest)
    exact ih (processAttr s a) fun g hg => h g (List.mem_cons_of_mem _ hg)

/-- C6 (counterexample): with the feature active, a `null` element in the
attribute list makes `field.name` throw a `TypeError`, which propagates
out of `initDynamicCustomFieldTabs` — the claim's "never throws, even
with null/undefined elements" is false on the code. -/
theorem initDynamicCustomFieldTabs_throws_on_null_element :
    initDynamicCustomFieldTabs
        (.ctx (Context.mk (.bool true) (.arr [.jnull])))
        (Doc.mk true true true [] [] [] 0)
      = .error "TypeError" := by
  rfl

/-- C6 (amended): for every context whose attribute-list elements are all
attribute objects — including an absent, falsy, empty, or non-array list,
and objects with `null`/`undefined` names or values, which are normalized
or dropped — `initDynamicCustomFieldTabs` returns without throwing. -/
theorem initDynamicCustomFieldTabs_no_throw (jc : JSContext) (d : Doc)
    (h : allObjElems jc) :
    ∃ d', initDynamicCustomFieldTabs jc d = .ok d' := by
  cases jc with
  | cnull => exact ⟨d, rfl⟩
  | cundef => exact ⟨d, rfl⟩
  | ctx c =>
    by_cases hflag : c.productUseDynamicCustomFieldTabs.truthy = true
    · by_cases hcf : cfTruthy c.productCustomFields = true
      · have hgr : ∃ r, groupCustomFieldsIntoTabs c.productCustomFields = .ok r := by
          cases hcfv : c.productCustomFields with
          | prim v => exact ⟨_, rfl⟩
          | arr fs =>
            have hobjs : ∀ f ∈ fs, ∃ a, f = JSField.obj a := by
              have h2 := h
              simp only [allObjElems, hcfv] at h2
              exact h2
            by_cases hemp : fs.isEmpty = true
            · refine ⟨{ leadingFields := [], tabs := [] }, ?_⟩
              simp [groupCustomFieldsIntoTabs, hemp]
            · obtain ⟨s', hs'⟩ := groupFieldsGo_ok_of_objs fs initGState hobjs
              refine ⟨{ leadingFields := s'.leading, tabs := s'.tabs }, ?_⟩
              simp [groupCustomFieldsIntoTabs, hemp, hs']
        obtain ⟨r, hr⟩ := hgr
        refine ⟨if r.tabs.length > 0
            then bindDynamicTabClicks
              (injectDynamicTabs r.tabs (injectLeadingCustomFields r.leadingFields d))
            else injectLeadingCustomFields r.leadingFields d, ?_⟩
        simp only [initDynamicCustomFieldTabs, hflag, hcf, hr, Bool.not_true,
          Bool.false_eq_true, if_false]
        split
        · rfl
        · rfl
      · exact ⟨d, by simp [initDynamicCustomFieldTabs, hflag,
          bool_eq_false_of_ne_true hcf]⟩
    · exact ⟨d, by simp [initDynamicCustomFieldTabs, bool_eq_false_of_ne_true hflag]⟩

theorem initDynamicCustomFieldTabs_no_throw_witness :
    ∃ d', initDynamicCustomFieldTabs
        (.ctx (Context.mk (.bool true)
          (.arr [.obj (Attr.mk .null .null), .obj (Attr.mk (.str "K") (.str "v"))])))
        (Doc.mk true true true [] [] [] 0)
      = .ok d' :=
  initDynamicCustomFieldTabs_no_throw _ _ (by
    intro f hf
    simp only [List.mem_cons, List.mem_singleton] at hf
    rcases hf with hf | hf | hf
    · exact ⟨_, hf⟩
    · exact ⟨_, hf⟩
    · exact absurd hf (by simp))

/-- C3 (counterexample): a trigger whose value trims to empty yields the
label `Details` but the slug `tab-custom-0`, not the `details` that the
claimed derivation-from-the-label produces: `slugify` is applied to the
raw trimmed trigger value, before the `Details` fallback. -/
theorem slug_not_from_label_counterexample :
    groupCustomFieldsIntoTabs (.arr [.obj (Attr.mk (.str "__newtab") (.str " "))])
      = .ok { leadingFields := [], tabs := [Tab.mk "Details" "tab-custom-0" []] }
    ∧ specSlugOfLabel "Details" 0 = "details"
    ∧ (Tab.mk "Details" "tab-custom-0" []).slug ≠ specSlugOfLabel "Details" 0 :=
  ⟨by rfl, by rfl, by decide⟩

theorem foldl_tabs_wf :
    ∀ (l : List Attr) (s : GState),
      (∀ i t, s.tabs.get? i = some t →
        ∃ lab : String, t.label = (if lab = "" then "Details" else lab)
          ∧ t.slug = slugify lab i) →
      ∀ i t, (l.foldl processAttr s).tabs.get? i = some t →
        ∃ lab : String, t.label = (if lab = "" then "Details" else lab)
          ∧ t.slug = slugify lab i := by
  intro l
  induction l with
  | nil => intro s hs; exact hs
  | cons a l ih =>
    intro s hs
    rw [List.foldl_cons]
    apply ih
    intro i t ht
    cases h1 : isNewTabTrigger (normName a.name) with
    | true =>
      rw [processAttr_trigger s a h1] at ht
      simp only at ht
      rcases Nat.lt_trichotomy i s.tabs.length with hlt | heq | hgt
      · rw [List.get?_append hlt] at ht
        exact hs i t ht
      · subst heq
        rw [List.get?_concat_length] at ht
        injection ht with ht
        subst ht
        exact ⟨tabLabelOf (normValue a.value), rfl, rfl⟩
      · rw [List.get?_eq_none.mpr (by simp only [List.length_append,
          List.length_cons, List.length_nil]; omega)] at ht
        cases ht
    | false =>
      cases h2 : (normName a.name).truthy with
      | true =>
        rw [processAttr_push s a h1 h2] at ht
        by_cases hg : (s.seen && !s.tabs.isEmpty) = true
        · rw [if_pos hg] at ht
          have ht2 : (appendToLast s.tabs (normFieldEntry a)).get? i = some t := ht
          have hproj := appendToLast_labelSlug (normFieldEntry a) s.tabs i
          rw [ht2] at hproj
          cases ho : s.tabs.get? i with
          | none => rw [ho] at hproj; cases hproj
          | some t0 =>
            rw [ho] at hproj
            simp at hproj
            obtain ⟨lab, hl, hsg⟩ := hs i t0 ho
            exact ⟨lab, by rw [hproj.1, hl], by rw [hproj.2, hsg]⟩
        · rw [if_neg hg] at ht
          exact hs i t ht
      | false =>
        rw [processAttr_skip s a h1 h2] at ht
        exact hs i t ht

/-- C3 (amended): each produced tab is built from one raw string — the
trigger's trimmed value: the label is that string, or `Details` when it
is empty, while the slug is `slugify` of that same raw string at the
tab's zero-based index (lowercase, whitespace runs to hyphens, strip
outside `[a-z0-9-]`, synthetic `tab-custom-<index>` when empty).  The
slug is NOT derived from the displayed label: a tab labelled by the
`Details` fallback always gets the synthetic slug. -/
theorem groupCustomFieldsIntoTabs_label_slug (l : List Attr) (r : GroupResult)
    (h : groupCustomFieldsIntoTabs (.arr (l.map JSField.obj)) = .ok r)
    (i : Nat) (t : Tab) (ht : r.tabs.get? i = some t) :
    ∃ lab : String, t.label = (if lab = "" then "Details" else lab)
      ∧ t.slug = slugify lab i := by
  rw [group_obj_eq] at h
  injection h with h
  subst h
  simp only at ht
  exact foldl_tabs_wf l initGState
    (by intro j t0 ht0; simp [initGState] at ht0) i t ht

theorem groupCustomFieldsIntoTabs_label_slug_witness :
    ∃ lab : String,
      (Tab.mk "Specs" "specs" []).label = (if lab = "" then "Details" else lab)
      ∧ (Tab.mk "Specs" "specs" []).slug = slugify lab 0 :=
  groupCustomFieldsIntoTabs_label_slug
    [Attr.mk (.str "__newtab") (.str "Specs")]
    (GroupResult.mk [] [Tab.mk "Specs" "specs" []])
    (by rfl) 0 (Tab.mk "Specs" "specs" []) (by rfl)

theorem chVal_digitCh : ∀ d : Nat, d < 10 → chVal (digitCh d) = d := by
  intro d h
  interval_cases d <;> decide

theorem digitCh_ne_dash : ∀ d : Nat, digitCh d ≠ '-' := by
  intro d
  unfold digitCh
  split <;> decide

theorem natDecGo_ne_dash :
    ∀ (fuel n : Nat) (c : Char), c ∈ natDecGo fuel n → c ≠ '-' := by
  intro fuel
  induction fuel with
  | zero => intro n c hc; cases hc
  | succ fuel ih =>
    intro n c hc
    have hstep : natDecGo (fuel + 1) n
        = if n < 10 then [digitCh n]
          else natDecGo fuel (n / 10) ++ [digitCh (n % 10)] := rfl
    rw [hstep] at hc
    by_cases h10 : n < 10
    · rw [if_pos h10] at hc
      rw [List.mem_singleton] at hc
      subst hc
      exact digitCh_ne_dash n
    · rw [if_neg h10] at hc
      rcases List.mem_append.mp hc with h1 | h1
      · exact ih _ c h1
      · rw [List.mem_singleton] at h1
        subst h1
        exact digitCh_ne_dash _

theorem listVal_natDecGo : ∀ (fuel n : Nat), n < fuel → listVal (natDecGo fuel n) = n := by
  intro fuel
  induction fuel with
  | zero => intro n h; exact absurd h (Nat.not_lt_zero n)
  | succ fuel ih =>
    intro n h
    have hstep : natDecGo (fuel + 1) n
        = if n < 10 then [digitCh n]
          else natDecGo fuel (n / 10) ++ [digitCh (n % 10)] := rfl
    rw [hstep]
    by_cases h10 : n < 10
    · rw [if_pos h10]
      show listVal [digitCh n] = n
      simp only [listVal, List.foldl_cons, List.foldl_nil]
      rw [chVal_digitCh n h10]
      omega
    · rw [if_neg h10]
      have hdiv : n / 10 < fuel := by
        have h1 : n / 10 < n := Nat.div_lt_self (by omega) (by omega)
        omega
      have IH := ih (n / 10) hdiv
      have hmod := chVal_digitCh (n % 10) (Nat.mod_lt n (by omega))
      simp only [listVal, List.foldl_append, List.foldl_cons, List.foldl_nil] at IH ⊢
      rw [IH, hmod]
      omega

theorem natStr_inj {m n : Nat} (h : natStr m = natStr n) : m = n := by
  have hd : natDecGo (m + 1) m = natDecGo (n + 1) n := congrArg String.data h
  have h1 := listVal_natDecGo (m + 1) m (Nat.lt_succ_self m)
  have h2 := listVal_natDecGo (n + 1) n (Nat.lt_succ_self n)
  rw [hd] at h1
  omega

theorem takeWhile_append_dash (p : Char → Bool) (hp : p '-' = false) :
    ∀ (A B : List Char), (∀ c ∈ A, p c = true) →
      (A ++ '-' :: B).takeWhile p = A := by
  intro A
  induction A with
  | nil =>
    intro B _
    show List.takeWhile p ('-' :: B) = []
    simp [List.takeWhile_cons, hp]
  | cons a A ih =>
    intro B h
    have ha := h a (List.mem_cons_self a A)
    show List.takeWhile p (a :: (A ++ '-' :: B)) = a :: A
    rw [List.takeWhile_cons, ha]
    simp only [if_true, ite_true]
    rw [ih B (fun c hc => h c (List.mem_cons_of_mem _ hc))]

theorem dashfree_tail_eq (A1 A2 D1 D2 : List Char)
    (h1 : ∀ c ∈ D1, (c != '-') = true) (h2 : ∀ c ∈ D2, (c != '-') = true)
    (h : A1 ++ '-' :: D1 = A2 ++ '-' :: D2) : D1 = D2 := by
  have key : ∀ (A D : List Char), (A ++ '-' :: D).reverse = D.reverse ++ '-' :: A.reverse := by
    intro A D
    simp [List.reverse_append]
  have hr := congrArg List.reverse h
  rw [key, key] at hr
  have e1 : (D1.reverse ++ '-' :: A1.reverse).takeWhile (fun c => c != '-') = D1.reverse :=
    takeWhile_append_dash _ (by decide) D1.reverse A1.reverse
      (fun c hc => h1 c (List.mem_reverse.mp hc))
  have e2 : (D2.reverse ++ '-' :: A2.reverse).takeWhile (fun c => c != '-') = D2.reverse :=
    takeWhile_append_dash _ (by decide) D2.reverse A2.reverse
      (fun c hc => h2 c (List.mem_reverse.mp hc))
  have ht := congrArg (List.takeWhile (fun c => c != '-')) hr
  rw [e1, e2] at ht
  exact List.reverse_injective ht

theorem string_data_append (a b : String) : (a ++ b).data = a.data ++ b.data := rfl

/-- C4: two distinct tab positions always render distinct identifiers:
`tab-dynamic-<slug>-<index>` ends in the decimal index after the last
hyphen, so different indices give different strings even when the two
slugs are identical (and even when one slug embeds the other's tail). -/
theorem renderedTabId_distinct (t1 t2 : Tab) (i j : Nat) (hij : i ≠ j) :
    renderedTabId t1.slug i ≠ renderedTabId t2.slug j := by
  intro heq
  apply hij
  apply natStr_inj
  have hd : ("tab-dynamic-".data ++ t1.slug.data) ++ '-' :: (natStr i).data
      = ("tab-dynamic-".data ++ t2.slug.data) ++ '-' :: (natStr j).data := by
    have h0 := congrArg String.data heq
    have hdash : ("-" : String).data = ['-'] := rfl
    simp only [renderedTabId, string_data_append, hdash] at h0
    simpa [List.append_assoc] using h0
  have hdd := dashfree_tail_eq _ _ _ _
    (fun c hc => by
      have := natDecGo_ne_dash (i + 1) i c hc
      simpa using this)
    (fun c hc => by
      have := natDecGo_ne_dash (j + 1) j c hc
      simpa using this)
    hd
  exact congrArg String.mk hdd

theorem renderedTabId_distinct_witness :
    renderedTabId (Tab.mk "Info" "info" []).slug 0
      ≠ renderedTabId (Tab.mk "Info" "info" []).slug 1 :=
  renderedTabId_distinct (Tab.mk "Info" "info" []) (Tab.mk "Info" "info" []) 0 1
    (by decide)

/-- C8 (counterexample): a click on a link whose target matches the
dynamic pattern but whose panel does not exist returns before
`e.preventDefault()` is ever called: the handler does not prevent the
default navigation (first component `false`), contradicting the claimed
"prevent default, then no-op if the panel is missing" ordering. -/
theorem handleTabClick_missing_panel_counterexample :
    handleTabClick
        (TabGroup.mk [TabLabelNode.mk (some ("#tab-dynamic-" ++ "missing-0")) false] []) 0
      = (false,
         TabGroup.mk [TabLabelNode.mk (some ("#tab-dynamic-" ++ "missing-0")) false] []) := by
  rfl

/-- C8 (amended): for every click on a label whose target reference
matches the `#tab-dynamic-` pattern, the handler resolves the referenced
panel first; if no panel carries the id it does nothing at all — it does
NOT prevent the default navigation; only when the panel exists does it
prevent default, deactivate every label and panel in the group, and
activate exactly the clicked label and the first panel with that id. -/
theorem handleTabClick_behavior (g : TabGroup) (i : Nat)
    (lab : TabLabelNode) (rest : String)
    (hget : g.labels.get? i = some lab)
    (hhref : lab.href = some ("#tab-dynamic-" ++ rest)) :
    handleTabClick g i =
      match g.panels.findIdx? (fun p => p.id == ("tab-dynamic-" ++ rest : String)) with
      | none => (false, g)
      | some k =>
        (true,
         { labels := g.labels.mapIdx fun j l => { l with active := j == i }
           panels := g.panels.mapIdx fun j p => { p with active := j == k } }) := by
  obtain ⟨rl⟩ := rest
  have hlen : ("#tab-dynamic-" ++ (⟨rl⟩ : String)).length = 13 + rl.length := by
    show ("#tab-dynamic-".data ++ rl).length = 13 + rl.length
    rw [List.length_append]
    rfl
  have hne : ¬("#tab-dynamic-" ++ (⟨rl⟩ : String) = ""
      ∨ "#tab-dynamic-" ++ (⟨rl⟩ : String) = "#") := by
    rintro (hh | hh)
    · have h2 := congrArg String.length hh
      rw [hlen] at h2
      have h0 : ("" : String).length = 0 := rfl
      rw [h0] at h2
      omega
    · have h2 := congrArg String.length hh
      rw [hlen] at h2
      have h0 : ("#" : String).length = 1 := rfl
      rw [h0] at h2
      omega
  have htarget : (⟨("#tab-dynamic-" ++ (⟨rl⟩ : String)).data.drop 1⟩ : String)
      = "tab-dynamic-" ++ (⟨rl⟩ : String) := rfl
  simp only [handleTabClick, hget, hhref]
  rw [if_neg hne]
  rw [htarget]

theorem handleTabClick_behavior_witness :
    handleTabClick
        (TabGroup.mk [TabLabelNode.mk (some "#tab-dynamic-a-0") false]
          [TabPanelNode.mk "tab-dynamic-a-0" false, TabPanelNode.mk "other" true]) 0
      = (true,
         TabGroup.mk [TabLabelNode.mk (some "#tab-dynamic-a-0") true]
          [TabPanelNode.mk "tab-dynamic-a-0" true, TabPanelNode.mk "other" false]) := by
  have h := handleTabClick_behavior
    (TabGroup.mk [TabLabelNode.mk (some "#tab-dynamic-a-0") false]
      [TabPanelNode.mk "tab-dynamic-a-0" false, TabPanelNode.mk "other" true]) 0
    (TabLabelNode.mk (some "#tab-dynamic-a-0") false) "a-0" rfl rfl
  rw [h]
  decide

theorem init_render_step (c : Context) (d : Doc) (r : GroupResult)
    (hflag : c.productUseDynamicCustomFieldTabs.truthy = true)
    (hcf : cfTruthy c.productCustomFields = true)
    (hr : groupCustomFieldsIntoTabs c.productCustomFields = .ok r)
    (htabs : r.tabs ≠ [])
    (ha1 : d.hasLeadingAnchor = true) (ha2 : d.hasTabsAnchor = true)
    (ha3 : d.hasContentAnchor = true) :
    initDynamicCustomFieldTabs (.ctx c) d = .ok
      { hasLeadingAnchor := true, hasTabsAnchor := true, hasContentAnchor := true,
        leadingPairs := d.leadingPairs ++ r.leadingFields,
        tabListItems := d.tabListItems ++ r.tabs.mapIdx renderTabItem,
        tabPanels := d.tabPanels ++ r.tabs.mapIdx renderTabPanel,
        clickListeners := d.clickListeners + 1 } := by
  obtain ⟨a1, a2, a3, lp, ti, tp, cl⟩ := d
  simp only at ha1 ha2 ha3
  subst ha1
  subst ha2
  subst ha3
  simp only [initDynamicCustomFieldTabs, hflag, hcf, hr, Bool.not_true,
    Bool.false_eq_true, if_false]
  have hlen : r.tabs.length > 0 := List.length_pos.mpr htabs
  rw [if_pos hlen]
  by_cases hl : r.leadingFields.isEmpty = true
  · have hl2 : r.leadingFields = [] := List.isEmpty_iff.mp hl
    simp [injectLeadingCustomFields, injectDynamicTabs, bindDynamicTabClicks,
      hl, hl2, List.isEmpty_iff, htabs]
  · simp [injectLeadingCustomFields, injectDynamicTabs, bindDynamicTabClicks,
      hl, List.isEmpty_iff, htabs]

/-- C10: `initDynamicCustomFieldTabs` is not idempotent: with the same
rendering-enabled context (truthy flag, a partition with at least one
tab) and all three anchors present, a second invocation inserts a second
copy of every leading-field pair, tab list item and content panel before
the same anchors, and registers one more delegated click listener. -/
theorem initDynamicCustomFieldTabs_not_idempotent
    (c : Context) (d : Doc) (r : GroupResult)
    (hflag : c.productUseDynamicCustomFieldTabs.truthy = true)
    (hr : groupCustomFieldsIntoTabs c.productCustomFields = .ok r)
    (htabs : r.tabs ≠ [])
    (ha1 : d.hasLeadingAnchor = true) (ha2 : d.hasTabsAnchor = true)
    (ha3 : d.hasContentAnchor = true) :
    ∃ d1 d2,
      initDynamicCustomFieldTabs (.ctx c) d = .ok d1 ∧
      initDynamicCustomFieldTabs (.ctx c) d1 = .ok d2 ∧
      d2.leadingPairs = d.leadingPairs ++ r.leadingFields ++ r.leadingFields ∧
      d2.tabListItems = d.tabListItems ++ r.tabs.mapIdx renderTabItem
          ++ r.tabs.mapIdx renderTabItem ∧
      d2.tabPanels = d.tabPanels ++ r.tabs.mapIdx renderTabPanel
          ++ r.tabs.mapIdx renderTabPanel ∧
      d2.clickListeners = d.clickListeners + 2 := by
  have hcf : cfTruthy c.productCustomFields = true := by
    cases hv : c.productCustomFields with
    | arr fs => rfl
    | prim v =>
      rw [hv] at hr
      have h2 : (Except.ok { leadingFields := [], tabs := [] }
          : Except String GroupResult) = .ok r := hr
      injection h2 with h2
      rw [← h2] at htabs
      exact absurd rfl htabs
  refine ⟨_, _, init_render_step c d r hflag hcf hr htabs ha1 ha2 ha3,
    init_render_step c _ r hflag hcf hr htabs rfl rfl rfl, ?_, ?_, ?_, ?_⟩
  · simp [List.append_assoc]
  · simp [List.append_assoc]
  · simp [List.append_assoc]
  · simp

theorem initDynamicCustomFieldTabs_not_idempotent_witness :
    ∃ d1 d2,
      initDynamicCustomFieldTabs
          (.ctx (Context.mk (.bool true)
            (.arr [.obj (Attr.mk (.str "__newtab") (.str "T")),
                   .obj (Attr.mk (.str "F") (.str "v"))])))
          (Doc.mk true true true [] [] [] 0) = .ok d1 ∧
      initDynamicCustomFieldTabs
          (.ctx (Context.mk (.bool true)
            (.arr [.obj (Attr.mk (.str "__newtab") (.str "T")),
                   .obj (Attr.mk (.str "F") (.str "v"))])))
          d1 = .ok d2 ∧
      d2.leadingPairs = (Doc.mk true true true [] [] [] 0).leadingPairs
          ++ (GroupResult.mk [] [Tab.mk "T" "t" [FieldEntry.mk "F" (.str "v")]]).leadingFields
          ++ (GroupResult.mk [] [Tab.mk "T" "t" [FieldEntry.mk "F" (.str "v")]]).leadingFields ∧
      d2.tabListItems = (Doc.mk true true true [] [] [] 0).tabListItems
          ++ (GroupResult.mk [] [Tab.mk "T" "t" [FieldEntry.mk "F" (.str "v")]]).tabs.mapIdx renderTabItem
          ++ (GroupResult.mk [] [Tab.mk "T" "t" [FieldEntry.mk "F" (.str "v")]]).tabs.mapIdx renderTabItem ∧
      d2.tabPanels = (Doc.mk true true true [] [] [] 0).tabPanels
          ++ (GroupResult.mk [] [Tab.mk "T" "t" [FieldEntry.mk "F" (.str "v")]]).tabs.mapIdx renderTabPanel
          ++ (GroupResult.mk [] [Tab.mk "T" "t" [FieldEntry.mk "F" (.str "v")]]).tabs.mapIdx renderTabPanel ∧
      d2.clickListeners = (Doc.mk true true true [] [] [] 0).clickListeners + 2 :=
  initDynamicCustomFieldTabs_not_idempotent _ _ _ rfl (by rfl) (by decide) rfl rfl rfl
